/-
Verification development for write-read-test (src/main.cpp), a program that
writes a deterministic pseudo-random byte stream of a requested size to a file,
forces it to disk, reads it back while regenerating the stream from the same
seed, and counts mismatched bytes.

The C++ source is shallowly embedded: machine integers become Nat with explicit
reduction mod 2^64 where uint64_t overflow matters, fallible operations return
Option, and the file system is abstracted into an environment recording the
success of each I/O call and the byte content the reopened file yields.
-/
import Mathlib

namespace WriteReadTest

/-- Numeric value of a list of decimal digit characters, most significant
first, as accumulated by std::from_chars. -/
def digitsToNat (ds : List Char) : Nat :=
  ds.foldl (fun acc c => 10 * acc + (c.toNat - '0'.toNat)) 0

/-- Model of std::from_chars(begin, end, x) for a uint64_t target, as used at
src/main.cpp:28 and src/main.cpp:69: consumes the longest prefix of decimal
digits, returning the parsed value together with the unconsumed remainder of
the string; none when there is no leading digit (errc::invalid_argument) or
the digits exceed uint64_t (errc::result_out_of_range). -/
def from_chars_u64 (s : List Char) : Option (Nat × List Char) :=
  let ds := s.takeWhile Char.isDigit
  if ds = [] then none
  else if digitsToNat ds < 2 ^ 64 then some (digitsToNat ds, s.dropWhile Char.isDigit)
  else none

/-- Seed parsing (src/main.cpp:69): only the error code is inspected, so any
trailing non-digit characters are ignored. -/
def parse_u64 (s : String) : Option Nat :=
  (from_chars_u64 s.data).map Prod.fst

/-- One `size *= 1024` step on a uint64_t (src/main.cpp:32-38): wraps mod 2^64. -/
def mul1024 (n : Nat) : Nat := n * 1024 % 2 ^ 64

/-- The total multiplier the switch fallthrough applies for a recognized suffix
character (src/main.cpp:30-43): T falls through G, M, K, giving 1024^4, and so
on down to K giving 1024; unrecognized characters have no multiplier. -/
def suffix_mult (c : Char) : Option Nat :=
  if c = 'T' ∨ c = 't' then some (1024 ^ 4)
  else if c = 'G' ∨ c = 'g' then some (1024 ^ 3)
  else if c = 'M' ∨ c = 'm' then some (1024 ^ 2)
  else if c = 'K' ∨ c = 'k' then some 1024
  else none

/-- parse_size (src/main.cpp:25-45): parse a decimal prefix with from_chars,
then switch on the single character following the digits. The switch cases
fall through, so 'T' multiplies by 1024 four times, 'G' three times, 'M'
twice, 'K' once; end of string accepts the raw value; anything else is
rejected. Characters after the suffix character are never examined. When the
digits consume the whole argument, the C++ code dereferences the terminating
NUL of argv and takes the accepting '\0' case, modelled by the empty
remainder. -/
def parse_size (s : String) : Option Nat :=
  match from_chars_u64 s.data with
  | none => none
  | some (n, rest) =>
    match rest with
    | [] => some n
    | c :: _ =>
      if c = 'T' ∨ c = 't' then some (mul1024 (mul1024 (mul1024 (mul1024 n))))
      else if c = 'G' ∨ c = 'g' then some (mul1024 (mul1024 (mul1024 n)))
      else if c = 'M' ∨ c = 'm' then some (mul1024 (mul1024 n))
      else if c = 'K' ∨ c = 'k' then some (mul1024 n)
      else none

/-- The built-in default seed (src/main.cpp:54). -/
def default_seed : Nat := 0xb473fa49a165403e

/-- Outcome of the argument handling in main (src/main.cpp:58-85). usageError:
wrong arity, usage text printed, exit 1. sizeError: parse_size failed,
diagnostic printed, exit 1. run seed size d: the program proceeds to the write
phase with this seed and size; d records whether the seed-parse diagnostic of
src/main.cpp:71 was printed on the way (the code prints it but does not
return, leaving the default seed in place). -/
inductive ArgOutcome where
  | usageError
  | sizeError
  | run (seed size : Nat) (seedDiag : Bool)
deriving DecidableEq

/-- Argument handling of main (src/main.cpp:58-85), over argv[1..]. -/
def parseArgs (args : List String) : ArgOutcome :=
  match args with
  | [sizeArg, _path] =>
    match parse_size sizeArg with
    | none => ArgOutcome.sizeError
    | some size => ArgOutcome.run default_seed size false
  | [seedArg, sizeArg, _path] =>
    let seedRes := parse_u64 seedArg
    match parse_size sizeArg with
    | none => ArgOutcome.sizeError
    | some size => ArgOutcome.run (seedRes.getD default_seed) size seedRes.isNone
  | _ => ArgOutcome.usageError

/-- A seedable deterministic word generator over an opaque state type σ,
modelling Prng = std::independent_bits_engine over std::mt19937_64
(src/main.cpp:47-51): `init` models construction from a seed / `seed(s)`
(src/main.cpp:87, 136) and `next` models `operator()` (src/main.cpp:100, 149).
`next` is a pure function of the state, so reseeding with the same seed
reproduces the same word sequence, which is the reproducibility guarantee the
C++ engine provides. -/
structure Generator (σ : Type) where
  init : Nat → σ
  next : σ → Nat × σ

/-- Engine state after n calls to the generator seeded with `seed`. -/
def genState {σ : Type} (g : Generator σ) (seed : Nat) : Nat → σ
  | 0 => g.init seed
  | n + 1 => (g.next (genState g seed n)).2

/-- The n-th 64-bit word the seeded engine produces (result_type is 64 bits,
hence the reduction mod 2^64). -/
def genWord {σ : Type} (g : Generator σ) (seed n : Nat) : Nat :=
  (g.next (genState g seed n)).1 % 2 ^ 64

/-- Byte i of the in-memory representation of word w: little-endian, the x86
native layout that fwrite emits and std::as_bytes exposes (src/main.cpp:103,
158-159). Both phases view bytes identically, so only consistency matters. -/
def byteOf (w i : Nat) : Nat := w / 256 ^ i % 256

/-- The byte at offset p of the deterministic stream. Each loop iteration k
refills the whole 1024-word buffer (src/main.cpp:99-101, 148-150), so the
buffer in iteration k holds words 1024k..1024k+1023 and byte offset p of the
stream lies in word p/8 at byte p%8. -/
def streamByte {σ : Type} (g : Generator σ) (seed p : Nat) : Nat :=
  byteOf (genWord g seed (p / 8)) (p % 8)

/-- Success of each I/O interaction plus the byte content the reopened file
yields, abstracting the file system. `writeShortAt` is the iteration index (if
any) at which fwrite returns a short count (src/main.cpp:103); `data` is what
fread delivers in the read phase (src/main.cpp:152) — it equals the written
stream exactly when nothing corrupted the file on disk. -/
structure Env where
  openWriteOk : Bool
  writeShortAt : Option Nat
  flushOk : Bool
  filenoOk : Bool
  syncOk : Bool
  closeOk : Bool
  openReadOk : Bool
  data : List Nat

/-- I/O events, recorded in the order the program attempts them. -/
inductive Ev where
  | openW
  | write (c : Nat)
  | flush
  | fileno
  | sync
  | closeW
  | openR
  | read (c : Nat)
deriving DecidableEq

/-- Every I/O call succeeds. -/
def allOk (env : Env) : Prop :=
  env.openWriteOk = true ∧ env.writeShortAt = none ∧ env.flushOk = true ∧
    env.filenoOk = true ∧ env.syncOk = true ∧ env.closeOk = true ∧
    env.openReadOk = true

/-- The write loop (src/main.cpp:98-115): while bytes_left > 0, refill the
buffer, write min(bytes_left, 8192) bytes, fail if fwrite is short. `fuel`
bounds the iteration count structurally; every iteration consumes at least one
byte, so fuel = initial bytes_left suffices and the fuel-exhausted case is
unreachable whenever bytesLeft ≤ fuel. Returns the attempted write events and
whether every fwrite succeeded. -/
def writeLoop (env : Env) : Nat → Nat → Nat → List Ev × Bool
  | 0, _, _ => ([], true)
  | _ + 1, _, 0 => ([], true)
  | fuel + 1, k, n + 1 =>
    let c := min (n + 1) 8192
    if env.writeShortAt = some k then ([Ev.write c], false)
    else
      let r := writeLoop env fuel (k + 1) (n + 1 - c)
      (Ev.write c :: r.1, r.2)

/-- The bytes the write loop emits: iteration k writes the first
min(bytes_left, 8192) bytes of the freshly refilled buffer, i.e. stream bytes
8192k onward (src/main.cpp:102-103). Same fuel discipline as writeLoop. -/
def writeOutput {σ : Type} (g : Generator σ) (seed : Nat) : Nat → Nat → Nat → List Nat
  | 0, _, _ => []
  | _ + 1, _, 0 => []
  | fuel + 1, k, n + 1 =>
    let c := min (n + 1) 8192
    (List.range c).map (fun i => streamByte g seed (8192 * k + i)) ++
      writeOutput g seed fuel (k + 1) (n + 1 - c)

/-- The per-iteration byte counts min(bytes_left, 8192) shared by the write
loop (src/main.cpp:102) and the read loop (src/main.cpp:151). -/
def chunkSizes : Nat → Nat → List Nat
  | 0, _ => []
  | _ + 1, 0 => []
  | fuel + 1, n + 1 =>
    let c := min (n + 1) 8192
    c :: chunkSizes fuel (n + 1 - c)

/-- Number of positions i < n where data[a+i] differs from stream byte a+i:
the inner comparison loop of the read phase (src/main.cpp:158-162). -/
def mismCount {σ : Type} (data : List Nat) (g : Generator σ) (seed a n : Nat) : Nat :=
  List.countP (fun i => data.getD (a + i) 0 != streamByte g seed (a + i)) (List.range n)

/-- The read/verify loop (src/main.cpp:147-169): refill the reference buffer,
read min(bytes_left, 8192) bytes, fail (none) if fread returns fewer bytes
than requested — which happens exactly when the file holds fewer than
8192k + c bytes — else count mismatches and continue. Returns the attempted
read events and the accumulated error count on success. -/
def readLoop {σ : Type} (env : Env) (g : Generator σ) (seed : Nat) :
    Nat → Nat → Nat → List Ev × Option Nat
  | 0, _, _ => ([], some 0)
  | _ + 1, _, 0 => ([], some 0)
  | fuel + 1, k, n + 1 =>
    let c := min (n + 1) 8192
    if env.data.length < 8192 * k + c then ([Ev.read c], none)
    else
      let errs := mismCount env.data g seed (8192 * k) c
      let r := readLoop env g seed fuel (k + 1) (n + 1 - c)
      (Ev.read c :: r.1, r.2.map (fun e => errs + e))

/-- Observable outcome of a run: the process exit status, the ordered I/O
events attempted, and — on completion — the final report (the size printed by
the Wrote/Read lines, the num_errors printed by the Found line). -/
structure RunResult where
  exit : Nat
  trace : List Ev
  report : Option (Nat × Nat)
deriving DecidableEq

/-- The program after argument parsing (src/main.cpp:87-175): open for write,
write loop, fflush, fileno, fsync, fclose — each failure exits 1 immediately —
then reopen for read, read/verify loop, final report. Falling off the end of
main yields exit status 0 regardless of the error count. -/
def runProgram {σ : Type} (env : Env) (g : Generator σ) (seed size : Nat) : RunResult :=
  if env.openWriteOk = false then ⟨1, [Ev.openW], none⟩
  else
    let w := writeLoop env size 0 size
    let t0 := Ev.openW :: w.1
    if w.2 = false then ⟨1, t0, none⟩
    else if env.flushOk = false then ⟨1, t0 ++ [Ev.flush], none⟩
    else if env.filenoOk = false then ⟨1, t0 ++ [Ev.flush, Ev.fileno], none⟩
    else if env.syncOk = false then ⟨1, t0 ++ [Ev.flush, Ev.fileno, Ev.sync], none⟩
    else if env.closeOk = false then
      ⟨1, t0 ++ [Ev.flush, Ev.fileno, Ev.sync, Ev.closeW], none⟩
    else
      let t1 := t0 ++ [Ev.flush, Ev.fileno, Ev.sync, Ev.closeW]
      if env.openReadOk = false then ⟨1, t1 ++ [Ev.openR], none⟩
      else
        let r := readLoop env g seed size 0 size
        let t2 := t1 ++ Ev.openR :: r.1
        match r.2 with
        | none => ⟨1, t2, none⟩
        | some e => ⟨0, t2, some (size, e)⟩

/-- The final error percentage double(num_errors) / size * 100.0
(src/main.cpp:171), as an exact rational. When size = 0 the C++ expression is
0.0 / 0.0, an IEEE NaN — no number at all — modelled as none. -/
def errorPercent (numErrors size : Nat) : Option ℚ :=
  if size = 0 then none else some ((numErrors : ℚ) / (size : ℚ) * 100)

/-- The byte count of a write event. -/
def evWriteBytes (e : Ev) : Option Nat :=
  match e with
  | Ev.write c => some c
  | _ => none

/-- The byte count of a read event. -/
def evReadBytes (e : Ev) : Option Nat :=
  match e with
  | Ev.read c => some c
  | _ => none

/-- The byte counts of the write events of a trace, in order. -/
def writeEvBytes (t : List Ev) : List Nat := t.filterMap evWriteBytes

/-- The byte counts of the read events of a trace, in order. -/
def readEvBytes (t : List Ev) : List Nat := t.filterMap evReadBytes

/-- A concrete generator instance (state = call counter) used to instantiate
the generic theorems on executable inputs: word n is n itself. -/
def g0 : Generator Nat := ⟨fun seed => seed, fun s => (s, s + 1)⟩

lemma mul1024_eq (n : Nat) : mul1024 n = n * 1024 % 2 ^ 64 := rfl

lemma mul1024_mul (n m : Nat) : mul1024 (n * m % 2 ^ 64) = n * (m * 1024) % 2 ^ 64 := by
  unfold mul1024
  rw [Nat.mod_mul_mod, Nat.mul_assoc]

lemma mul1024_one (n : Nat) : mul1024 n = n * 1024 ^ 1 % 2 ^ 64 := by
  rw [mul1024_eq]
  norm_num

lemma mul1024_two (n : Nat) : mul1024 (mul1024 n) = n * 1024 ^ 2 % 2 ^ 64 := by
  rw [mul1024_eq n, mul1024_mul]
  norm_num

lemma mul1024_three (n : Nat) :
    mul1024 (mul1024 (mul1024 n)) = n * 1024 ^ 3 % 2 ^ 64 := by
  rw [mul1024_eq n, mul1024_mul, mul1024_mul]
  norm_num

lemma mul1024_four (n : Nat) :
    mul1024 (mul1024 (mul1024 (mul1024 n))) = n * 1024 ^ 4 % 2 ^ 64 := by
  rw [mul1024_eq n, mul1024_mul, mul1024_mul, mul1024_mul]
  norm_num

/-- parse_size applies exactly the fallthrough multiplier of the first
character after the digits, wrapping mod 2^64, and never looks further. -/
lemma parse_size_suffix (s : String) (n : Nat) (c : Char) (r : List Char) (f : Nat)
    (h : from_chars_u64 s.data = some (n, c :: r)) (hf : suffix_mult c = some f) :
    parse_size s = some (n * f % 2 ^ 64) := by
  unfold parse_size
  rw [h]
  show (if c = 'T' ∨ c = 't' then some (mul1024 (mul1024 (mul1024 (mul1024 n))))
      else if c = 'G' ∨ c = 'g' then some (mul1024 (mul1024 (mul1024 n)))
      else if c = 'M' ∨ c = 'm' then some (mul1024 (mul1024 n))
      else if c = 'K' ∨ c = 'k' then some (mul1024 n)
      else none) = some (n * f % 2 ^ 64)
  unfold suffix_mult at hf
  by_cases hT : c = 'T' ∨ c = 't'
  · rw [if_pos hT] at hf
    obtain rfl := Option.some.inj hf
    rw [if_pos hT, mul1024_four]
  · rw [if_neg hT] at hf
    by_cases hG : c = 'G' ∨ c = 'g'
    · rw [if_pos hG] at hf
      obtain rfl := Option.some.inj hf
      rw [if_neg hT, if_pos hG, mul1024_three]
    · rw [if_neg hG] at hf
      by_cases hM : c = 'M' ∨ c = 'm'
      · rw [if_pos hM] at hf
        obtain rfl := Option.some.inj hf
        rw [if_neg hT, if_neg hG, if_pos hM, mul1024_two]
      · rw [if_neg hM] at hf
        by_cases hK : c = 'K' ∨ c = 'k'
        · rw [if_pos hK] at hf
          obtain rfl := Option.some.inj hf
          rw [if_neg hT, if_neg hG, if_neg hM, if_pos hK, mul1024_one]
          norm_num
        · rw [if_neg hK] at hf
          exact absurd hf (by simp)

/-- C3: the spec says a four-argument invocation with a syntactically bad SEED
must print a diagnostic and terminate non-zero without any file I/O; the code
prints the diagnostic (src/main.cpp:71) but is missing the return, so it
proceeds to the write phase with the default seed. Evaluating the embedded
argument handling at such an input yields `run` (program continues to file
I/O) with the diagnostic flag set, not a failing outcome. -/
theorem c3_seed_error_ignored :
    parseArgs ["abc", "1K", "p"] = ArgOutcome.run default_seed 1024 true ∧
      parseArgs ["abc", "1K", "p"] ≠ ArgOutcome.usageError ∧
      parseArgs ["abc", "1K", "p"] ≠ ArgOutcome.sizeError := by
  refine ⟨rfl, by decide, by decide⟩

/-- C4: parse_size maps "1K" to 1024, "2M" to 2097152, "1" to 1, "3G" to
3·1024³; each suffix K/M/G/T, upper or lower case, multiplies by 1024 from the
previous unit, no suffix means raw bytes; a non-numeric prefix, an
unrecognized suffix, or empty input is rejected, and a rejected SIZE argument
makes the program exit with the size diagnostic. -/
theorem c4_parse_size_examples :
    parse_size ("1K") = some 1024 ∧ parse_size ("2M") = some 2097152 ∧
      parse_size ("1") = some 1 ∧ parse_size ("3G") = some (3 * 1024 ^ 3) ∧
      parse_size ("1T") = some (1024 ^ 4) ∧
      parse_size ("1k") = some 1024 ∧ parse_size ("2m") = some 2097152 ∧
      parse_size ("3g") = some (3 * 1024 ^ 3) ∧ parse_size ("1t") = some (1024 ^ 4) ∧
      parse_size ("17") = some 17 ∧
      parse_size ("5X") = none ∧ parse_size ("abc") = none ∧ parse_size ("") = none ∧
      parseArgs ["5X", "p"] = ArgOutcome.sizeError ∧
      parseArgs ["abc", "p"] = ArgOutcome.sizeError := by
  decide

/-- C9: parse_size inspects only the first non-digit character: two arguments
with the same numeric value and the same first non-digit character parse
identically whatever follows, and in particular "1KB" and "7Mxyz" are accepted
as 1024 and 7·1024² rather than rejected. -/
theorem c9_trailing_ignored (s₁ s₂ : String) (n : Nat) (c : Char)
    (r₁ r₂ : List Char)
    (h₁ : from_chars_u64 s₁.data = some (n, c :: r₁))
    (h₂ : from_chars_u64 s₂.data = some (n, c :: r₂)) :
    parse_size s₁ = parse_size s₂ ∧
      parse_size ("1KB") = some 1024 ∧ parse_size ("7Mxyz") = some (7 * 1024 ^ 2) := by
  refine ⟨?_, by decide, by decide⟩
  unfold parse_size
  rw [h₁, h₂]

theorem c9_trailing_ignored_witness :
    parse_size ("1KB") = parse_size ("1Kz") :=
  (c9_trailing_ignored ("1KB") ("1Kz") 1 'K' ['B'] ['z'] (by decide) (by decide)).1

/-- C10: for a valid numeric prefix n with recognized suffix multiplier f,
parse_size returns n·f mod 2^64 with no overflow detection; "16777216T" is
accepted and yields 0 even though the true product 16777216·1024⁴ = 2^64
exceeds uint64_t. -/
theorem c10_overflow_wrap (s : String) (n : Nat) (c : Char) (r : List Char)
    (f : Nat) (h : from_chars_u64 s.data = some (n, c :: r))
    (hf : suffix_mult c = some f) :
    parse_size s = some (n * f % 2 ^ 64) ∧
      parse_size ("16777216T") = some 0 ∧ 2 ^ 64 ≤ 16777216 * 1024 ^ 4 :=
  ⟨parse_size_suffix s n c r f h hf, by decide, by norm_num⟩

theorem c10_overflow_wrap_witness :
    parse_size ("16777216T") = some (16777216 * 1024 ^ 4 % 2 ^ 64) :=
  (c10_overflow_wrap ("16777216T") 16777216 'T' [] (1024 ^ 4) (by decide)
    (by decide)).1

lemma chunkSizes_zero (fuel : Nat) : chunkSizes fuel 0 = [] := by
  cases fuel <;> rfl

lemma writeOutput_zero {σ : Type} (g : Generator σ) (seed fuel k : Nat) :
    writeOutput g seed fuel k 0 = [] := by
  cases fuel <;> rfl

lemma writeLoop_zero (env : Env) (fuel k : Nat) :
    writeLoop env fuel k 0 = ([], true) := by
  cases fuel <;> rfl

lemma readLoop_zero {σ : Type} (env : Env) (g : Generator σ) (seed fuel k : Nat) :
    readLoop env g seed fuel k 0 = ([], some 0) := by
  cases fuel <;> rfl

lemma chunkSizes_succ (fuel n : Nat) :
    chunkSizes (fuel + 1) (n + 1) =
      min (n + 1) 8192 :: chunkSizes fuel (n + 1 - min (n + 1) 8192) := rfl

/-- The chunk byte counts sum to the total size: the loops move exactly the
requested number of bytes. -/
lemma chunkSizes_sum (fuel n : Nat) (hn : n ≤ fuel) : (chunkSizes fuel n).sum = n := by
  induction fuel generalizing n with
  | zero =>
    obtain rfl : n = 0 := Nat.le_zero.mp hn
    rfl
  | succ f ih =>
    cases n with
    | zero => rfl
    | succ m =>
      rw [chunkSizes_succ, List.sum_cons, ih _ (by omega)]
      omega

lemma chunkSizes_ne_nil (fuel n : Nat) (h0 : 0 < n) (hn : n ≤ fuel) :
    chunkSizes fuel n ≠ [] := by
  cases fuel with
  | zero => omega
  | succ f =>
    cases n with
    | zero => omega
    | succ m =>
      rw [chunkSizes_succ]
      exact List.cons_ne_nil _ _

/-- When the size is not a multiple of the buffer capacity, the last chunk
carries exactly the remainder. -/
lemma chunkSizes_getLast (fuel n : Nat) (hn : n ≤ fuel) (hmod : n % 8192 ≠ 0) :
    (chunkSizes fuel n).getLast? = some (n % 8192) := by
  induction fuel generalizing n with
  | zero =>
    obtain rfl : n = 0 := by omega
    simp at hmod
  | succ f ih =>
    cases n with
    | zero => simp at hmod
    | succ m =>
      rw [chunkSizes_succ]
      by_cases hlt : m + 1 < 8192
      · rw [show min (m + 1) 8192 = m + 1 from by omega, Nat.sub_self, chunkSizes_zero]
        simp [Nat.mod_eq_of_lt hlt]
      · have h8 : 8192 < m + 1 := by omega
        rw [show min (m + 1) 8192 = 8192 from by omega]
        have htail : chunkSizes f (m + 1 - 8192) ≠ [] :=
          chunkSizes_ne_nil _ _ (by omega) (by omega)
        obtain ⟨b, l', hbe⟩ := List.exists_cons_of_ne_nil htail
        rw [hbe, List.getLast?_cons_cons, ← hbe, ih _ (by omega) (by omega)]
        simp only [Option.some.injEq]
        omega

/-- Every chunk but the last is a full 8192-byte buffer. -/
lemma chunkSizes_dropLast (fuel n : Nat) (hn : n ≤ fuel) :
    ∀ x ∈ (chunkSizes fuel n).dropLast, x = 8192 := by
  induction fuel generalizing n with
  | zero =>
    obtain rfl : n = 0 := by omega
    intro x hx
    rw [chunkSizes_zero] at hx
    simp at hx
  | succ f ih =>
    cases n with
    | zero =>
      intro x hx
      rw [chunkSizes_zero] at hx
      simp at hx
    | succ m =>
      rw [chunkSizes_succ]
      rcases eq_or_ne (chunkSizes f (m + 1 - min (m + 1) 8192)) [] with he | he
      · rw [he]
        simp
      · obtain ⟨b, l', hbe⟩ := List.exists_cons_of_ne_nil he
        rw [hbe, List.dropLast_cons₂]
        intro x hx
        rcases List.mem_cons.mp hx with rfl | hx2
        · have hne : m + 1 - min (m + 1) 8192 ≠ 0 := by
            intro h0
            exact he (by rw [h0, chunkSizes_zero])
          omega
        · have hrec := ih (m + 1 - min (m + 1) 8192) (by omega)
          rw [hbe] at hrec
          exact hrec x hx2

/-- The mismatch count over a range splits at any point: counting is purely
positional and accumulative. -/
lemma mismCount_add {σ : Type} (data : List Nat) (g : Generator σ)
    (seed a m n : Nat) :
    mismCount data g seed a (m + n) =
      mismCount data g seed a m + mismCount data g seed (a + m) n := by
  unfold mismCount
  rw [List.range_add, List.countP_append, List.countP_map]
  have harg : ((fun i => data.getD (a + i) 0 != streamByte g seed (a + i)) ∘
      (m + ·)) = fun i => data.getD (a + m + i) 0 != streamByte g seed (a + m + i) := by
    funext i
    simp [Function.comp, Nat.add_assoc]
  rw [harg]

/-- When no fwrite fails, the write loop performs exactly the chunk sequence
and succeeds. -/
lemma writeLoop_ok (env : Env) (hw : env.writeShortAt = none) (fuel : Nat) :
    ∀ k n, n ≤ fuel →
      writeLoop env fuel k n = ((chunkSizes fuel n).map Ev.write, true) := by
  induction fuel with
  | zero =>
    intro k n hn
    obtain rfl : n = 0 := by omega
    rfl
  | succ f ih =>
    intro k n hn
    cases n with
    | zero => rfl
    | succ m =>
      simp only [writeLoop, chunkSizes_succ, List.map_cons, hw]
      rw [if_neg (fun hcon => Option.noConfusion hcon),
        ih (k + 1) (m + 1 - min (m + 1) 8192) (by omega)]

/-- When the file holds at least the bytes the loop will request, the read
loop performs exactly the chunk sequence and accumulates the flat positional
mismatch count. -/
lemma readLoop_ok {σ : Type} (env : Env) (g : Generator σ) (seed : Nat)
    (fuel : Nat) :
    ∀ k n, n ≤ fuel → 8192 * k + n ≤ env.data.length →
      readLoop env g seed fuel k n =
        ((chunkSizes fuel n).map Ev.read,
          some (mismCount env.data g seed (8192 * k) n)) := by
  induction fuel with
  | zero =>
    intro k n hn hd
    obtain rfl : n = 0 := by omega
    simp [readLoop, chunkSizes, mismCount]
  | succ f ih =>
    intro k n hn hd
    cases n with
    | zero => simp [readLoop, chunkSizes_zero, mismCount]
    | succ m =>
      simp only [readLoop, chunkSizes_succ, List.map_cons]
      rw [if_neg (by omega)]
      by_cases h8 : 8192 ≤ m + 1
      · rw [show min (m + 1) 8192 = 8192 from by omega,
          ih (k + 1) (m + 1 - 8192) (by omega) (by omega)]
        simp only [Option.map_some']
        have hsplit : m + 1 = 8192 + (m + 1 - 8192) := by omega
        have hadd := mismCount_add env.data g seed (8192 * k) 8192 (m + 1 - 8192)
        rw [← hsplit] at hadd
        rw [hadd, show 8192 * k + 8192 = 8192 * (k + 1) from by ring]
      · rw [show min (m + 1) 8192 = m + 1 from by omega, Nat.sub_self,
          readLoop_zero, chunkSizes_zero]
        simp

/-- The bytes the write loop emits are exactly the first n stream bytes from
offset 8192k: chunked emission flattens to the plain stream prefix. -/
lemma writeOutput_eq {σ : Type} (g : Generator σ) (seed : Nat) (fuel : Nat) :
    ∀ k n, n ≤ fuel →
      writeOutput g seed fuel k n =
        (List.range n).map (fun i => streamByte g seed (8192 * k + i)) := by
  induction fuel with
  | zero =>
    intro k n hn
    obtain rfl : n = 0 := by omega
    rfl
  | succ f ih =>
    intro k n hn
    cases n with
    | zero => rfl
    | succ m =>
      simp only [writeOutput]
      by_cases h8 : 8192 ≤ m + 1
      · rw [show min (m + 1) 8192 = 8192 from by omega,
          ih (k + 1) (m + 1 - 8192) (by omega)]
        have hsplit : m + 1 = 8192 + (m + 1 - 8192) := by omega
        conv_rhs => rw [hsplit, List.range_add]
        rw [List.map_append, List.map_map]
        have hfun : ((fun i => streamByte g seed (8192 * k + i)) ∘ (8192 + ·)) =
            fun j => streamByte g seed (8192 * (k + 1) + j) := by
          funext j
          simp only [Function.comp]
          exact congrArg (streamByte g seed) (by ring)
        rw [hfun]
      · rw [show min (m + 1) 8192 = m + 1 from by omega, Nat.sub_self,
          writeOutput_zero, List.append_nil]

lemma writeOutput_length {σ : Type} (g : Generator σ) (seed n : Nat) :
    (writeOutput g seed n 0 n).length = n := by
  rw [writeOutput_eq g seed n 0 n le_rfl]
  simp

/-- Reading back an uncorrupted written file yields the stream byte at every
position below the size. -/
lemma writeOutput_getD {σ : Type} (g : Generator σ) (seed n p : Nat)
    (hp : p < n) :
    (writeOutput g seed n 0 n).getD p 0 = streamByte g seed p := by
  rw [writeOutput_eq g seed n 0 n le_rfl]
  have hlen : p < ((List.range n).map fun i => streamByte g seed (8192 * 0 + i)).length := by
    simpa using hp
  rw [List.getD_eq_getElem?_getD, List.getElem?_eq_getElem hlen]
  simp

/-- The canonical successful run: all I/O succeeds and the file is long
enough, so the program runs both loops to completion, exits 0, and reports the
flat mismatch count. -/
lemma runProgram_ok {σ : Type} (env : Env) (g : Generator σ) (seed size : Nat)
    (hok : allOk env) (hlen : size ≤ env.data.length) :
    runProgram env g seed size =
      ⟨0,
        Ev.openW :: (chunkSizes size size).map Ev.write ++
          [Ev.flush, Ev.fileno, Ev.sync, Ev.closeW] ++
          Ev.openR :: (chunkSizes size size).map Ev.read,
        some (size, mismCount env.data g seed 0 size)⟩ := by
  obtain ⟨h1, h2, h3, h4, h5, h6, h7⟩ := hok
  have hread := readLoop_ok env g seed size 0 size le_rfl (by simpa using hlen)
  rw [show (8192 : Nat) * 0 = 0 from by ring] at hread
  simp only [runProgram, writeLoop_ok env h2 size 0 size le_rfl, hread,
    h1, h3, h4, h5, h6, h7]
  simp

lemma bool_ne_false {b : Bool} (h : ¬b = false) : b = true := by
  cases b
  · exact absurd rfl h
  · rfl

lemma filterMap_evWrite_write (cs : List Nat) :
    List.filterMap (evWriteBytes ∘ Ev.write) cs = cs := by
  induction cs with
  | nil => rfl
  | cons c cs ih => simp [List.filterMap_cons, evWriteBytes, Function.comp, ih]

lemma filterMap_evWrite_read (cs : List Nat) :
    List.filterMap (evWriteBytes ∘ Ev.read) cs = [] := by
  induction cs with
  | nil => rfl
  | cons c cs ih => simp [List.filterMap_cons, evWriteBytes, Function.comp, ih]

lemma filterMap_evRead_write (cs : List Nat) :
    List.filterMap (evReadBytes ∘ Ev.write) cs = [] := by
  induction cs with
  | nil => rfl
  | cons c cs ih => simp [List.filterMap_cons, evReadBytes, Function.comp, ih]

lemma filterMap_evRead_read (cs : List Nat) :
    List.filterMap (evReadBytes ∘ Ev.read) cs = cs := by
  induction cs with
  | nil => rfl
  | cons c cs ih => simp [List.filterMap_cons, evReadBytes, Function.comp, ih]

/-- The write loop only ever attempts write events. -/
lemma writeLoop_events (env : Env) (fuel : Nat) :
    ∀ k n e, e ∈ (writeLoop env fuel k n).1 → ∃ c, e = Ev.write c := by
  induction fuel with
  | zero =>
    intro k n e he
    cases n <;> simp [writeLoop] at he
  | succ f ih =>
    intro k n e he
    cases n with
    | zero =>
      rw [writeLoop_zero] at he
      simp at he
    | succ m =>
      by_cases hw : env.writeShortAt = some k
      · simp only [writeLoop, if_pos hw] at he
        simp at he
        exact ⟨_, he⟩
      · simp only [writeLoop, if_neg hw] at he
        rcases List.mem_cons.mp he with rfl | h2
        · exact ⟨_, rfl⟩
        · exact ih (k + 1) (m + 1 - min (m + 1) 8192) e h2

lemma openR_not_mem_writeTrace (env : Env) (size : Nat) :
    Ev.openR ∉ Ev.openW :: (writeLoop env size 0 size).1 := by
  intro hmem
  rcases List.mem_cons.mp hmem with h | h
  · exact Ev.noConfusion h
  · obtain ⟨c, hc⟩ := writeLoop_events env size 0 size _ h
    exact Ev.noConfusion hc

lemma openR_not_mem_writeTrace_append (env : Env) (size : Nat) (l : List Ev)
    (hl : Ev.openR ∉ l) :
    Ev.openR ∉ (Ev.openW :: (writeLoop env size 0 size).1) ++ l := by
  intro hmem
  rcases List.mem_append.mp hmem with h | h
  · exact openR_not_mem_writeTrace env size h
  · exact hl h

/-- C1: round trip — for every generator, seed and size, if every I/O call
succeeds and the bytes read back equal the bytes the write phase emitted, the
program completes with exit status 0 and a final mismatch counter of 0,
whatever the relation between the size and the 8192-byte buffer capacity. -/
theorem c1_roundtrip {σ : Type} (g : Generator σ) (seed size : Nat) (env : Env)
    (hok : allOk env) (hdata : env.data = writeOutput g seed size 0 size) :
    (runProgram env g seed size).exit = 0 ∧
      (runProgram env g seed size).report = some (size, 0) := by
  have hlen : size ≤ env.data.length := by
    rw [hdata, writeOutput_length]
  have hz : mismCount env.data g seed 0 size = 0 := by
    unfold mismCount
    apply List.countP_eq_zero.mpr
    intro i hi
    rw [hdata]
    simp only [Nat.zero_add]
    rw [writeOutput_getD g seed size i (List.mem_range.mp hi)]
    simp
  rw [runProgram_ok env g seed size hok hlen, hz]
  exact ⟨rfl, rfl⟩

theorem c1_roundtrip_witness :
    (runProgram ⟨true, none, true, true, true, true, true, writeOutput g0 7 20 0 20⟩
        g0 7 20).exit = 0 ∧
      (runProgram ⟨true, none, true, true, true, true, true, writeOutput g0 7 20 0 20⟩
          g0 7 20).report = some (20, 0) :=
  c1_roundtrip g0 7 20
    ⟨true, none, true, true, true, true, true, writeOutput g0 7 20 0 20⟩
    ⟨rfl, rfl, rfl, rfl, rfl, rfl, rfl⟩ rfl

/-- C2 counterexample: the claim asserts that for SIZE = 0 the final error
percentage is 100%. The code computes double(num_errors) / size * 100.0 with
size = 0, i.e. 0.0 / 0.0, which is NaN — not a number at all, and in
particular not 100. -/
theorem c2_percent_counterexample :
    errorPercent 0 0 = none ∧ errorPercent 0 0 ≠ some 100 := by
  refine ⟨rfl, ?_⟩
  simp [errorPercent]

/-- C2 (amended): a SIZE = 0 run completes immediately with exit status 0,
performs no write or read iterations (hence prints no progress percentage at
all), reports 0 bytes written, 0 bytes read and 0 mismatches, and the final
error percentage is the undefined 0/0 (NaN in double arithmetic), not 100%. -/
theorem c2_zero_size_amended {σ : Type} (g : Generator σ) (seed : Nat)
    (env : Env) (hok : allOk env) :
    runProgram env g seed 0 =
      ⟨0, [Ev.openW, Ev.flush, Ev.fileno, Ev.sync, Ev.closeW, Ev.openR],
        some (0, 0)⟩ ∧
      errorPercent 0 0 = none := by
  refine ⟨?_, rfl⟩
  rw [runProgram_ok env g seed 0 hok (Nat.zero_le _), chunkSizes_zero]
  simp [mismCount]

theorem c2_zero_size_amended_witness :
    runProgram ⟨true, none, true, true, true, true, true, []⟩ g0 0 0 =
      ⟨0, [Ev.openW, Ev.flush, Ev.fileno, Ev.sync, Ev.closeW, Ev.openR],
        some (0, 0)⟩ ∧
      errorPercent 0 0 = none :=
  c2_zero_size_amended g0 0 ⟨true, none, true, true, true, true, true, []⟩
    ⟨rfl, rfl, rfl, rfl, rfl, rfl, rfl⟩

/-- C5: every run in which all I/O succeeds and the file can satisfy every
read completes with exit status 0 and reports its mismatch counter as data,
whatever that counter is — mismatches never become a non-zero exit status. -/
theorem c5_completion_exit_zero {σ : Type} (g : Generator σ) (seed size : Nat)
    (env : Env) (hok : allOk env) (hlen : size ≤ env.data.length) :
    (runProgram env g seed size).exit = 0 ∧
      ∃ e, (runProgram env g seed size).report = some (size, e) := by
  rw [runProgram_ok env g seed size hok hlen]
  exact ⟨rfl, _, rfl⟩

theorem c5_completion_exit_zero_witness :
    (runProgram ⟨true, none, true, true, true, true, true, [9, 9]⟩ g0 0 2).exit = 0 ∧
      (runProgram ⟨true, none, true, true, true, true, true, [9, 9]⟩ g0 0 2).report =
        some (2, 2) :=
  ⟨(c5_completion_exit_zero g0 0 2 ⟨true, none, true, true, true, true, true, [9, 9]⟩
      ⟨rfl, rfl, rfl, rfl, rfl, rfl, rfl⟩ (by decide)).1,
    by decide⟩

/-- C7: the final counter equals the number of byte positions in [0, SIZE)
where the read-back byte differs from the regenerated reference byte —
counting is positional and exhaustive, not stop-at-first — and flipping any
single byte of the written file to a differing value before the read phase
makes the counter at least 1. -/
theorem c7_exhaustive_count {σ : Type} (g : Generator σ) (seed size : Nat)
    (env : Env) (j b : Nat) (hok : allOk env) (hlen : size ≤ env.data.length) :
    (runProgram env g seed size).report =
      some (size, mismCount env.data g seed 0 size) ∧
      (env.data = (writeOutput g seed size 0 size).set j b → j < size →
        b ≠ streamByte g seed j → 1 ≤ mismCount env.data g seed 0 size) := by
  constructor
  · rw [runProgram_ok env g seed size hok hlen]
  · intro hdata hj hb
    unfold mismCount
    apply List.countP_pos_iff.mpr
    refine ⟨j, List.mem_range.mpr hj, ?_⟩
    rw [hdata]
    simp only [Nat.zero_add]
    have hjlen : j < (writeOutput g seed size 0 size).length := by
      rw [writeOutput_length]
      exact hj
    have hset : ((writeOutput g seed size 0 size).set j b).getD j 0 = b := by
      rw [List.getD_eq_getElem?_getD,
        List.getElem?_eq_getElem (by simpa using hjlen)]
      simp
    rw [hset]
    simpa using hb

theorem c7_exhaustive_count_witness :
    (runProgram
        ⟨true, none, true, true, true, true, true, (writeOutput g0 0 2 0 2).set 1 77⟩
        g0 0 2).report =
      some (2, mismCount ((writeOutput g0 0 2 0 2).set 1 77) g0 0 0 2) ∧
      1 ≤ mismCount ((writeOutput g0 0 2 0 2).set 1 77) g0 0 0 2 :=
  ⟨(c7_exhaustive_count g0 0 2
      ⟨true, none, true, true, true, true, true, (writeOutput g0 0 2 0 2).set 1 77⟩
      1 77 ⟨rfl, rfl, rfl, rfl, rfl, rfl, rfl⟩ (by decide)).1,
    (c7_exhaustive_count g0 0 2
      ⟨true, none, true, true, true, true, true, (writeOutput g0 0 2 0 2).set 1 77⟩
      1 77 ⟨rfl, rfl, rfl, rfl, rfl, rfl, rfl⟩ (by decide)).2 rfl (by decide)
      (by decide)⟩

/-- C8: when SIZE is not a multiple of the 8192-byte buffer capacity, the
write phase emits exactly SIZE bytes, both loops perform the same chunk
sequence whose counts sum to SIZE (so the read phase reads back exactly SIZE
bytes), every chunk except the last is a full 8192 bytes, and the final chunk
carries exactly the remaining SIZE mod 8192 bytes. -/
theorem c8_partial_final_chunk {σ : Type} (g : Generator σ) (seed size : Nat)
    (env : Env) (hmod : size % 8192 ≠ 0) (hok : allOk env)
    (hlen : size ≤ env.data.length) :
    (writeOutput g seed size 0 size).length = size ∧
      writeEvBytes (runProgram env g seed size).trace = chunkSizes size size ∧
      readEvBytes (runProgram env g seed size).trace = chunkSizes size size ∧
      (chunkSizes size size).sum = size ∧
      (chunkSizes size size).getLast? = some (size % 8192) ∧
      ∀ x ∈ (chunkSizes size size).dropLast, x = 8192 := by
  refine ⟨writeOutput_length g seed size, ?_, ?_,
    chunkSizes_sum size size le_rfl, chunkSizes_getLast size size le_rfl hmod,
    chunkSizes_dropLast size size le_rfl⟩
  · rw [runProgram_ok env g seed size hok hlen]
    simp [writeEvBytes, List.filterMap_append, List.filterMap_cons, evWriteBytes,
      filterMap_evWrite_write, filterMap_evWrite_read]
  · rw [runProgram_ok env g seed size hok hlen]
    simp [readEvBytes, List.filterMap_append, List.filterMap_cons, evReadBytes,
      filterMap_evRead_write, filterMap_evRead_read]

theorem c8_partial_final_chunk_witness :
    writeEvBytes (runProgram ⟨true, none, true, true, true, true, true, [0, 0, 0]⟩
        g0 0 3).trace = chunkSizes 3 3 ∧
      readEvBytes (runProgram ⟨true, none, true, true, true, true, true, [0, 0, 0]⟩
          g0 0 3).trace = chunkSizes 3 3 ∧
      (chunkSizes 3 3).sum = 3 ∧
      (chunkSizes 3 3).getLast? = some (3 % 8192) :=
  ⟨(c8_partial_final_chunk g0 0 3
      ⟨true, none, true, true, true, true, true, [0, 0, 0]⟩ (by decide)
      ⟨rfl, rfl, rfl, rfl, rfl, rfl, rfl⟩ (by decide)).2.1,
    (c8_partial_final_chunk g0 0 3
      ⟨true, none, true, true, true, true, true, [0, 0, 0]⟩ (by decide)
      ⟨rfl, rfl, rfl, rfl, rfl, rfl, rfl⟩ (by decide)).2.2.1,
    (c8_partial_final_chunk g0 0 3
      ⟨true, none, true, true, true, true, true, [0, 0, 0]⟩ (by decide)
      ⟨rfl, rfl, rfl, rfl, rfl, rfl, rfl⟩ (by decide)).2.2.2.1,
    (c8_partial_final_chunk g0 0 3
      ⟨true, none, true, true, true, true, true, [0, 0, 0]⟩ (by decide)
      ⟨rfl, rfl, rfl, rfl, rfl, rfl, rfl⟩ (by decide)).2.2.2.2.1⟩

/-- C6: durability gating — if flush, sync or close fails, the program exits 1
and never attempts to reopen the destination for reading; and whenever the
reopen-for-read is attempted, flush, sync and close all succeeded and appear
in that order before it in the I/O trace. -/
theorem c6_durability_gate {σ : Type} (env : Env) (g : Generator σ)
    (seed size : Nat) :
    ((env.flushOk = false ∨ env.syncOk = false ∨ env.closeOk = false) →
        (runProgram env g seed size).exit = 1 ∧
          Ev.openR ∉ (runProgram env g seed size).trace) ∧
      (Ev.openR ∈ (runProgram env g seed size).trace →
        List.Sublist [Ev.flush, Ev.sync, Ev.closeW, Ev.openR]
            (runProgram env g seed size).trace ∧
          env.flushOk = true ∧ env.syncOk = true ∧ env.closeOk = true) := by
  by_cases h1 : env.openWriteOk = false
  · have hr : runProgram env g seed size = ⟨1, [Ev.openW], none⟩ := by
      unfold runProgram
      rw [if_pos h1]
    rw [hr]
    exact ⟨fun _ => ⟨rfl, by decide⟩, fun hmem => absurd hmem (by decide)⟩
  · by_cases h2 : (writeLoop env size 0 size).2 = false
    · have hr : runProgram env g seed size =
          ⟨1, Ev.openW :: (writeLoop env size 0 size).1, none⟩ := by
        unfold runProgram
        rw [if_neg h1]
        simp only [if_pos h2]
      rw [hr]
      exact ⟨fun _ => ⟨rfl, openR_not_mem_writeTrace env size⟩,
        fun hmem => absurd hmem (openR_not_mem_writeTrace env size)⟩
    · by_cases h3 : env.flushOk = false
      · have hr : runProgram env g seed size =
            ⟨1, Ev.openW :: (writeLoop env size 0 size).1 ++ [Ev.flush], none⟩ := by
          unfold runProgram
          rw [if_neg h1]
          simp only [if_neg h2, if_pos h3]
        rw [hr]
        exact ⟨fun _ => ⟨rfl, openR_not_mem_writeTrace_append env size _ (by decide)⟩,
          fun hmem =>
            absurd hmem (openR_not_mem_writeTrace_append env size _ (by decide))⟩
      · by_cases h4 : env.filenoOk = false
        · have hr : runProgram env g seed size =
              ⟨1, Ev.openW :: (writeLoop env size 0 size).1 ++ [Ev.flush, Ev.fileno],
                none⟩ := by
            unfold runProgram
            rw [if_neg h1]
            simp only [if_neg h2, if_neg h3, if_pos h4]
          rw [hr]
          exact ⟨fun _ => ⟨rfl, openR_not_mem_writeTrace_append env size _ (by decide)⟩,
            fun hmem =>
              absurd hmem (openR_not_mem_writeTrace_append env size _ (by decide))⟩
        · by_cases h5 : env.syncOk = false
          · have hr : runProgram env g seed size =
                ⟨1, Ev.openW :: (writeLoop env size 0 size).1 ++
                    [Ev.flush, Ev.fileno, Ev.sync], none⟩ := by
              unfold runProgram
              rw [if_neg h1]
              simp only [if_neg h2, if_neg h3, if_neg h4, if_pos h5]
            rw [hr]
            exact ⟨fun _ => ⟨rfl, openR_not_mem_writeTrace_append env size _ (by decide)⟩,
              fun hmem =>
                absurd hmem (openR_not_mem_writeTrace_append env size _ (by decide))⟩
          · by_cases h6 : env.closeOk = false
            · have hr : runProgram env g seed size =
                  ⟨1, Ev.openW :: (writeLoop env size 0 size).1 ++
                      [Ev.flush, Ev.fileno, Ev.sync, Ev.closeW], none⟩ := by
                unfold runProgram
                rw [if_neg h1]
                simp only [if_neg h2, if_neg h3, if_neg h4, if_neg h5, if_pos h6]
              rw [hr]
              exact ⟨fun _ => ⟨rfl,
                  openR_not_mem_writeTrace_append env size _ (by decide)⟩,
                fun hmem =>
                  absurd hmem (openR_not_mem_writeTrace_append env size _ (by decide))⟩
            · have hflags : env.flushOk = true ∧ env.syncOk = true ∧
                  env.closeOk = true :=
                ⟨bool_ne_false h3, bool_ne_false h5, bool_ne_false h6⟩
              have hnofail : ¬(env.flushOk = false ∨ env.syncOk = false ∨
                  env.closeOk = false) := by
                rintro (hf | hf | hf)
                · exact h3 hf
                · exact h5 hf
                · exact h6 hf
              by_cases h7 : env.openReadOk = false
              · have hr : runProgram env g seed size =
                    ⟨1, Ev.openW :: (writeLoop env size 0 size).1 ++
                        [Ev.flush, Ev.fileno, Ev.sync, Ev.closeW] ++ [Ev.openR],
                      none⟩ := by
                  unfold runProgram
                  rw [if_neg h1]
                  simp only [if_neg h2, if_neg h3, if_neg h4, if_neg h5, if_neg h6,
                    if_pos h7]
                rw [hr]
                refine ⟨fun hfail => absurd hfail hnofail, fun _ => ⟨?_, hflags⟩⟩
                rw [List.append_assoc]
                exact (List.nil_sublist
                  (Ev.openW :: (writeLoop env size 0 size).1)).append (by decide)
              · rcases hrr : (readLoop env g seed size 0 size).2 with _ | e
                · have hr : runProgram env g seed size =
                      ⟨1, Ev.openW :: (writeLoop env size 0 size).1 ++
                          [Ev.flush, Ev.fileno, Ev.sync, Ev.closeW] ++
                          Ev.openR :: (readLoop env g seed size 0 size).1,
                        none⟩ := by
                    unfold runProgram
                    rw [if_neg h1]
                    simp only [if_neg h2, if_neg h3, if_neg h4, if_neg h5, if_neg h6,
                      if_neg h7, hrr]
                  rw [hr]
                  refine ⟨fun hfail => absurd hfail hnofail, fun _ => ⟨?_, hflags⟩⟩
                  rw [List.append_assoc]
                  exact (List.nil_sublist
                    (Ev.openW :: (writeLoop env size 0 size).1)).append
                      (List.Sublist.cons₂ _ (List.Sublist.cons _
                        (List.Sublist.cons₂ _ (List.Sublist.cons₂ _
                          (List.Sublist.cons₂ _
                            (List.nil_sublist (readLoop env g seed size 0 size).1))))))
                · have hr : runProgram env g seed size =
                      ⟨0, Ev.openW :: (writeLoop env size 0 size).1 ++
                          [Ev.flush, Ev.fileno, Ev.sync, Ev.closeW] ++
                          Ev.openR :: (readLoop env g seed size 0 size).1,
                        some (size, e)⟩ := by
                    unfold runProgram
                    rw [if_neg h1]
                    simp only [if_neg h2, if_neg h3, if_neg h4, if_neg h5, if_neg h6,
                      if_neg h7, hrr]
                  rw [hr]
                  refine ⟨fun hfail => absurd hfail hnofail, fun _ => ⟨?_, hflags⟩⟩
                  rw [List.append_assoc]
                  exact (List.nil_sublist
                    (Ev.openW :: (writeLoop env size 0 size).1)).append
                      (List.Sublist.cons₂ _ (List.Sublist.cons _
                        (List.Sublist.cons₂ _ (List.Sublist.cons₂ _
                          (List.Sublist.cons₂ _
                            (List.nil_sublist (readLoop env g seed size 0 size).1))))))

theorem c6_durability_gate_witness :
    (runProgram ⟨true, none, false, true, true, true, true, []⟩ g0 0 0).exit = 1 ∧
      Ev.openR ∉ (runProgram ⟨true, none, false, true, true, true, true, []⟩
        g0 0 0).trace :=
  (c6_durability_gate ⟨true, none, false, true, true, true, true, []⟩ g0 0 0).1
    (Or.inl rfl)

end WriteReadTest
